import Mathlib

/-!
Shallow embedding of the misri IR interpreter (src/value.rs, src/instr.rs,
src/env.rs, src/exec.rs) and proofs about the behaviour its specification
describes.

Conventions of the embedding:
* Rust `i32` values are represented as `Int` together with the explicit
  two's-complement reduction `wrap32`; `usize` values as `Nat`, with the
  Rust cast `x as usize` represented by `usizeCast` (reduction mod 2^64)
  and `p as i32` by `wrap32`.  Arithmetic on `i32` wraps (release-profile
  semantics); integer division additionally keeps Rust's unconditional
  panics on division by zero and on `i32::MIN / -1`.
* Rust panics (`panic!`, `unwrap`, `expect`, out-of-bounds indexing) are
  represented by `Except.error` carrying a `Fault`.
* Rust `Vec` used as a stack (call stack, argument stack) is represented
  by a `List` whose head is the top of the stack.
* `HashMap` used only through insert-then-lookup is represented by an
  association list built by prepending, looked up front-to-back, so a
  later insert shadows an earlier one exactly as `HashMap::insert` does.
* The interpreter's buffered reader is represented as the list of integers
  remaining on the input (no claim concerns parse failures of `Read`),
  and the buffered writer as the `String` written so far.
-/

namespace Misri

/-- Two's-complement interpretation of an integer in 32 bits: the value of
the Rust `i32` holding the low 32 bits of `n`. -/
def wrap32 (n : Int) : Int := (n + 2^31) % 2^32 - 2^31

/-- The Rust cast `x as usize` (64-bit target) applied to a signed value:
reduce mod 2^64 and read the result as unsigned. -/
def usizeCast (n : Int) : Nat := (n % 2^64).toNat

/-- Faults: every `panic!`/`expect`/`unwrap`/index-out-of-bounds the source
can hit, one constructor per panic site kind. -/
inductive Fault where
  /-- Panics during `Func::init`/`Program::init` (unresolved label, missing
  `main`, unresolved call target): the spec's ResolutionError. -/
  | resolution (msg : String)
  /-- `panic!("cannot load ValInt")` in `Value::load`. -/
  | loadFromInt
  /-- `panic!("cannot store ValInt!")` in `Value::store`. -/
  | storeToInt
  /-- `panic!("ptr + ptr")` and friends in the arithmetic operators. -/
  | ptrPtr (op : String)
  /-- Rust panic on integer division by zero. -/
  | divByZero
  /-- Rust panic on `i32::MIN / -1` (division overflow, checked in every
  build profile). -/
  | divOverflow
  /-- Out-of-bounds `Vec` indexing panic. -/
  | indexOOB
  /-- `unwrap_or_else(|| panic!("{name} undefined"))` in `Env::get`. -/
  | undefinedReg (name : String)
  /-- `expect("arg stack empty")` in `Env::pop_arg`. -/
  | argStackEmpty
  /-- `last().unwrap()` on an empty frame stack. -/
  | emptyStack
  /-- `panic!("return error")` in the Return arm of `Interpreter::step`. -/
  | returnError
  /-- `expect("input error")` in the Read arm. -/
  | inputError
deriving DecidableEq, Repr

/-- `Value` from src/value.rs: `ValInt(i32)` or
`ValPtr { mem: Box<Vec<i32>>, size: usize, ptr: usize }`.  NOTE: the field
is `i32` in src/value.rs even though src/instr.rs (`Operand::Imm(i64)`) and
the Read arm of src/exec.rs hand it `i64` values; the embedding keeps the
declared `i32` width.  `Box` owns its buffer, so `Clone` (derived) copies
the buffer: a `Value` is plain data, exactly as embedded here. -/
inductive Value where
  | valInt (int : Int)
  | valPtr (mem : List Int) (size : Nat) (ptr : Nat)
deriving DecidableEq, Repr

namespace Value

/-- `Value::new_int`. -/
def new_int (int : Int) : Value := .valInt int

/-- `Value::new_ptr(size)`: zero-filled buffer of `size` cells, offset 0. -/
def new_ptr (size : Nat) : Value := .valPtr (List.replicate size 0) size 0

/-- `Value::default()` = `Value::new_int(0)`. -/
def dflt : Value := new_int 0

/-- `Value::load`: on a pointer, `Value::ValInt(mem[ptr])` (the index
panics when out of bounds — the source has a `// TODO: bounds checking`);
on an integer, `panic!("cannot load ValInt")`. -/
def load : Value → Except Fault Value
  | .valPtr mem _ ptr =>
    match mem.get? ptr with
    | some int => .ok (.valInt int)
    | none => .error .indexOOB
  | .valInt _ => .error .loadFromInt

/-- `Value::store(&mut self, val)`: on a pointer, `if let ValInt(int) = val`
write `mem[ptr] = int` (index panic when out of bounds), otherwise do
nothing; on an integer, `panic!("cannot store ValInt!")`.  The updated
`self` is returned in place of the Rust in-place mutation. -/
def store : Value → Value → Except Fault Value
  | .valPtr mem size ptr, val =>
    match val with
    | .valInt int =>
      if ptr < mem.length then .ok (.valPtr (mem.set ptr int) size ptr)
      else .error .indexOOB
    | _ => .ok (.valPtr mem size ptr)
  | .valInt _, _ => .error .storeToInt

/-- `impl Add for Value`: Int+Int is `i32` addition; Ptr+Int and Int+Ptr
shift the offset by `(ptr as i32 + rhs) as usize`; Ptr+Ptr panics. -/
def add : Value → Value → Except Fault Value
  | .valInt lhs, .valInt rhs => .ok (.valInt (wrap32 (lhs + rhs)))
  | .valPtr mem size ptr, .valInt rhs =>
    .ok (.valPtr mem size (usizeCast (wrap32 (wrap32 ptr + rhs))))
  | .valInt lhs, .valPtr mem size ptr =>
    .ok (.valPtr mem size (usizeCast (wrap32 (wrap32 ptr + lhs))))
  | _, _ => .error (.ptrPtr "+")

/-- `impl Sub for Value`, mirroring `add` with subtraction (the Int−Ptr arm
computes `ptr as i32 - lhs`, exactly as the source does). -/
def sub : Value → Value → Except Fault Value
  | .valInt lhs, .valInt rhs => .ok (.valInt (wrap32 (lhs - rhs)))
  | .valPtr mem size ptr, .valInt rhs =>
    .ok (.valPtr mem size (usizeCast (wrap32 (wrap32 ptr - rhs))))
  | .valInt lhs, .valPtr mem size ptr =>
    .ok (.valPtr mem size (usizeCast (wrap32 (wrap32 ptr - lhs))))
  | _, _ => .error (.ptrPtr "-")

/-- `impl Mul for Value`, mirroring `add` with multiplication. -/
def mul : Value → Value → Except Fault Value
  | .valInt lhs, .valInt rhs => .ok (.valInt (wrap32 (lhs * rhs)))
  | .valPtr mem size ptr, .valInt rhs =>
    .ok (.valPtr mem size (usizeCast (wrap32 (wrap32 ptr * rhs))))
  | .valInt lhs, .valPtr mem size ptr =>
    .ok (.valPtr mem size (usizeCast (wrap32 (wrap32 ptr * lhs))))
  | _, _ => .error (.ptrPtr "*")

/-- Rust `i32` division: panics on `rhs == 0` and on `i32::MIN / -1`
(both checked in every build profile), otherwise truncates toward zero. -/
def i32div (lhs rhs : Int) : Except Fault Int :=
  if rhs = 0 then .error .divByZero
  else if lhs = -(2^31) ∧ rhs = -1 then .error .divOverflow
  else .ok (Int.tdiv lhs rhs)

/-- `impl Div for Value`, mirroring `add` with `i32div`. -/
def div : Value → Value → Except Fault Value
  | .valInt lhs, .valInt rhs => (i32div lhs rhs).map .valInt
  | .valPtr mem size ptr, .valInt rhs =>
    (i32div (wrap32 ptr) rhs).map (fun q => .valPtr mem size (usizeCast q))
  | .valInt lhs, .valPtr mem size ptr =>
    (i32div (wrap32 ptr) lhs).map (fun q => .valPtr mem size (usizeCast q))
  | _, _ => .error (.ptrPtr "/")

/-- `impl PartialOrd for Value::partial_cmp`: two integers compare
normally; any combination involving a pointer yields `None`. -/
def pcmp : Value → Value → Option Ordering
  | .valInt lhs, .valInt rhs => some (compare lhs rhs)
  | _, _ => none

/-- `<` via `PartialOrd`: true exactly when `partial_cmp` is `Some(Less)`
(so false whenever a pointer is involved). -/
def ltb (x y : Value) : Bool := pcmp x y = some .lt

/-- `<=` via `PartialOrd`: `Some(Less | Equal)`. -/
def leb (x y : Value) : Bool := pcmp x y = some .lt ∨ pcmp x y = some .eq

/-- `>` via `PartialOrd`: `Some(Greater)`. -/
def gtb (x y : Value) : Bool := pcmp x y = some .gt

/-- `>=` via `PartialOrd`: `Some(Greater | Equal)`. -/
def geb (x y : Value) : Bool := pcmp x y = some .gt ∨ pcmp x y = some .eq

/-- Derived `PartialEq` on `Value` is structural equality (a `Box<Vec>`
compares by contents). -/
def beq (x y : Value) : Bool := x = y

/-- Whether a `Value` is the pointer variant. -/
def isPtr : Value → Bool
  | .valPtr _ _ _ => true
  | .valInt _ => false

/-- `impl Display for Value` — NOTE both arms use `writeln!`, so the
rendering itself ends in a newline; the pointer arm renders `self.load()`
(whose own `Display` appends a newline) and then appends a second one. -/
def display : Value → Except Fault String
  | .valInt int => .ok (toString int ++ "\n")
  | .valPtr mem size ptr => do
    let value ← load (.valPtr mem size ptr)
    match value with
    | .valInt int => .ok (toString int ++ "\n" ++ "\n")
    | _ => .ok "\n" -- unreachable: `load` only ever returns `ValInt`

end Value

/-- `Operand` from src/instr.rs: a register reference (name plus resolved
slot id, `Default` 0 before resolution) or an immediate (`i64` in the
source). -/
inductive Operand where
  | reg (name : String) (id : Nat)
  | imm (int : Int)
deriving DecidableEq, Repr

/-- `ArithOp` from src/instr.rs. -/
inductive ArithOp where
  | add | sub | div | mul
deriving DecidableEq, Repr

/-- `RelOp` from src/instr.rs. -/
inductive RelOp where
  | lt | le | gt | ge | eq | ne
deriving DecidableEq, Repr

/-- `Instr` from src/instr.rs.  `Goto`, `Cond` and `Call` carry both the
symbolic target name and the resolved numeric id (`Default` 0 before
resolution). -/
inductive Instr where
  | assign (x y : Operand)
  | arith (x y : Operand) (op : ArithOp) (z : Operand)
  | deref (x y : Operand)
  | store (x y : Operand)
  | load (x y : Operand)
  | label (name : String)
  | goto (name : String) (id : Nat)
  | cond (x : Operand) (op : RelOp) (y : Operand) (name : String) (id : Nat)
  | ret (x : Operand)
  | dec (x : Operand) (size : Int)
  | arg (x : Operand)
  | call (x : Operand) (name : String) (id : Nat)
  | param (x : Operand)
  | read (x : Operand)
  | write (x : Operand)
deriving DecidableEq, Repr

/-- `Func` from src/instr.rs. -/
structure Func where
  name : String
  body : List Instr
  nreg : Nat
  id : Nat
deriving DecidableEq, Repr

/-- `Program` from src/instr.rs (`VecDeque<Func>` as a list in order). -/
structure Program where
  funcs : List Func
  entry : Nat
deriving DecidableEq, Repr

/-- `Binding` from src/instr.rs: name→slot table plus the next fresh slot.
The `HashMap` is an association list; `insert` prepends only when the name
is absent, exactly like the source's `if self.map.get(name).is_none()`. -/
structure Binding where
  map : List (String × Nat)
  id : Nat
deriving DecidableEq, Repr

namespace Binding

/-- `Binding::new`. -/
def new : Binding := ⟨[], 0⟩

/-- `Binding::insert`: assign the next fresh slot on first sight only. -/
def insert (b : Binding) (name : String) : Binding :=
  match b.map.lookup name with
  | some _ => b
  | none => ⟨(name, b.id) :: b.map, b.id + 1⟩

/-- `Binding::get`. -/
def get (b : Binding) (name : String) : Option Nat := b.map.lookup name

end Binding

namespace Operand

/-- `Operand::init`: a register inserts its name and takes the bound slot
(the `unwrap` cannot fail right after `insert`; `getD 0` stands for it);
an immediate is untouched. -/
def init : Operand → Binding → Operand × Binding
  | .reg name _, bind =>
    let bind := bind.insert name
    (.reg name ((bind.get name).getD 0), bind)
  | o, bind => (o, bind)

end Operand

namespace Instr

/-- `Instr::bind`: thread the `Binding` through the instruction's operands
in the source's order (destination first).  `Label` and `Goto` fall in the
source's `_ => ()` arm. -/
def bind : Instr → Binding → Instr × Binding
  | .assign x y, b =>
    let (x, b) := x.init b; let (y, b) := y.init b; (.assign x y, b)
  | .arith x y op z, b =>
    let (x, b) := x.init b; let (y, b) := y.init b; let (z, b) := z.init b
    (.arith x y op z, b)
  | .deref x y, b =>
    let (x, b) := x.init b; let (y, b) := y.init b; (.deref x y, b)
  | .store x y, b =>
    let (x, b) := x.init b; let (y, b) := y.init b; (.store x y, b)
  | .load x y, b =>
    let (x, b) := x.init b; let (y, b) := y.init b; (.load x y, b)
  | .cond x op y name id, b =>
    let (x, b) := x.init b; let (y, b) := y.init b; (.cond x op y name id, b)
  | .ret x, b => let (x, b) := x.init b; (.ret x, b)
  | .dec x size, b => let (x, b) := x.init b; (.dec x size, b)
  | .arg x, b => let (x, b) := x.init b; (.arg x, b)
  | .call x name id, b => let (x, b) := x.init b; (.call x name id, b)
  | .param x, b => let (x, b) := x.init b; (.param x, b)
  | .read x, b => let (x, b) := x.init b; (.read x, b)
  | .write x, b => let (x, b) := x.init b; (.write x, b)
  | i, b => (i, b)

end Instr

/-- The label map built by the first loop of `Func::init`: for every
`Label` instruction, insert its own index under its name.  Prepending and
front-to-back lookup make a later duplicate shadow an earlier one like
`HashMap::insert`. -/
def labelMapAux : Nat → List Instr → List (String × Nat) → List (String × Nat)
  | _, [], map => map
  | id, instr :: rest, map =>
    match instr with
    | .label name => labelMapAux (id + 1) rest ((name, id) :: map)
    | _ => labelMapAux (id + 1) rest map

/-- Label name → instruction index for a function body. -/
def labelMap (body : List Instr) : List (String × Nat) := labelMapAux 0 body []

/-- A fallible loop body applied to every element in order, stopping at
the first panic — the shape shared by every `for_each`/`iter_mut` loop of
`Func::init` and `Program::init`. -/
def mapE (g : α → Except Fault β) : List α → Except Fault (List β)
  | [] => .ok []
  | a :: rest => do
    let b ← g a
    let rest ← mapE g rest
    .ok (b :: rest)

/-- One iteration of the second loop of `Func::init`: rewrite a `Goto` or
`Cond` target from the label map; a missing label panics (`unwrap` /
`panic!("{name}")`). -/
def resolveJump1 (map : List (String × Nat)) (instr : Instr) :
    Except Fault Instr :=
  match instr with
  | .goto name _ =>
    match map.lookup name with
    | some id => .ok (.goto name id)
    | none => .error (.resolution name)
  | .cond x op y name _ =>
    match map.lookup name with
    | some id => .ok (.cond x op y name id)
    | none => .error (.resolution name)
  | i => .ok i

/-- The second loop of `Func::init` over a whole body. -/
def resolveJumps (map : List (String × Nat)) (body : List Instr) :
    Except Fault (List Instr) :=
  mapE (resolveJump1 map) body

/-- The third loop of `Func::init`: bind every instruction's registers,
threading one `Binding` across the whole body. -/
def bindBody : List Instr → Binding → List Instr × Binding
  | [], b => ([], b)
  | instr :: rest, b =>
    let (instr, b) := instr.bind b
    let (rest, b) := bindBody rest b
    (instr :: rest, b)

namespace Func

/-- `Func::init`: build the label map, resolve jump targets, bind
registers, record the final slot count in `nreg`. -/
def init (f : Func) : Except Fault Func := do
  let map := labelMap f.body
  let body ← resolveJumps map f.body
  let (body, bind) := bindBody body Binding.new
  .ok { f with body := body, nreg := bind.id }

end Func

/-- The function-name map of `Program::init`: insert `(name, position)` in
program order; prepending makes a duplicate name resolve to its last
occurrence, like `HashMap::insert`. -/
def nameMapAux : Nat → List Func → List (String × Nat) → List (String × Nat)
  | _, [], map => map
  | id, f :: rest, map => nameMapAux (id + 1) rest ((f.name, id) :: map)

/-- Function name → function index for a program. -/
def nameMap (funcs : List Func) : List (String × Nat) := nameMapAux 0 funcs []

/-- Run `Func::init` on every function (the first `for_each` of
`Program::init`). -/
def initFuncs (funcs : List Func) : Except Fault (List Func) :=
  mapE Func.init funcs

/-- One iteration of the second `for_each` of `Program::init`: set the
`Func`'s id from the name map (the source `unwrap`s; the name was just
inserted, but a failed lookup is kept as the panic it would be). -/
def assignId (map : List (String × Nat)) (f : Func) : Except Fault Func :=
  match map.lookup f.name with
  | some id => .ok { f with id := id }
  | none => .error (.resolution f.name)

/-- The second `for_each` of `Program::init` over all functions. -/
def assignIds (map : List (String × Nat)) (funcs : List Func) :
    Except Fault (List Func) :=
  mapE (assignId map) funcs

/-- One iteration of the third `for_each` of `Program::init`: rewrite a
`Call`'s callee name into its function index; an unknown callee name
panics (`unwrap`). -/
def resolveCall1 (map : List (String × Nat)) (instr : Instr) :
    Except Fault Instr :=
  match instr with
  | .call x name _ =>
    match map.lookup name with
    | some id => .ok (.call x name id)
    | none => .error (.resolution name)
  | i => .ok i

/-- The third `for_each` of `Program::init` applied to one function's
body. -/
def resolveCallsF (map : List (String × Nat)) (f : Func) :
    Except Fault Func := do
  let body ← mapE (resolveCall1 map) f.body
  .ok { f with body := body }

/-- The third `for_each` of `Program::init` over all functions. -/
def resolveCalls (map : List (String × Nat)) (funcs : List Func) :
    Except Fault (List Func) :=
  mapE (resolveCallsF map) funcs

namespace Program

/-- `Program::init`: init every function, build the name map, set the entry
to the function named `main` (`expect("no main function found")`), assign
function ids, resolve call targets — in exactly the source's order, so a
missing `main` aborts before call targets are even examined. -/
def init (p : Program) : Except Fault Program := do
  let funcs ← initFuncs p.funcs
  let map := nameMap funcs
  let entry ← match map.lookup "main" with
    | some id => Except.ok id
    | none => Except.error (Fault.resolution "no main function found")
  let funcs ← assignIds map funcs
  let funcs ← resolveCalls map funcs
  .ok { funcs := funcs, entry := entry }

end Program

/-- `Frame` from src/env.rs: register slots, owning function id, program
counter. -/
structure Frame where
  map : List Value
  func : Nat
  pc : Nat
deriving DecidableEq, Repr

namespace Frame

/-- `Frame::new(func)`: `vec![Value::default(); func.nreg + 1]` slots —
note the `+ 1` — pc 0, owning function `func.id`. -/
def new (f : Func) : Frame :=
  { map := List.replicate (f.nreg + 1) Value.dflt, func := f.id, pc := 0 }

end Frame

/-- `Env` from src/env.rs: the call-frame stack and the shared argument
stack (both `Vec`s used as stacks; head of the list is the top). -/
structure Env where
  stack : List Frame
  args : List Value
deriving DecidableEq, Repr

namespace Env

/-- `Env::new(program)`: a single frame for the entry function (the index
`funcs[entry]` panics when out of range). -/
def new (p : Program) : Except Fault Env :=
  match p.funcs.get? p.entry with
  | some f => .ok { stack := [Frame.new f], args := [] }
  | none => .error .indexOOB

/-- `Env::top_frame` (`last().unwrap()`). -/
def topFrame : Env → Except Fault Frame
  | { stack := fr :: _, .. } => .ok fr
  | { stack := [], .. } => .error .emptyStack

/-- `Env::get(operand)`: an immediate becomes `Value::new_int` (the source
passes the `i64` where `new_int` takes `i32`; the embedding applies the
`as i32` reduction); a register reads the top frame's slot,
panicking "{name} undefined" when the slot is absent. -/
def getOp (e : Env) (o : Operand) : Except Fault Value :=
  match o with
  | .imm int => .ok (Value.new_int (wrap32 int))
  | .reg name id => do
    let fr ← e.topFrame
    match fr.map.get? id with
    | some v => .ok v
    | none => .error (.undefinedReg name)

/-- `Env::set(operand, value)`: writes the top frame's slot for a register
(`self.map[*id] = value` panics out of bounds); an immediate destination is
silently ignored. -/
def setOp (e : Env) (o : Operand) (v : Value) : Except Fault Env :=
  match o with
  | .imm _ => .ok e
  | .reg _ id =>
    match e.stack with
    | [] => .error .emptyStack
    | fr :: rest =>
      if id < fr.map.length then
        .ok { e with stack := { fr with map := fr.map.set id v } :: rest }
      else .error .indexOOB

end Env

namespace Program

/-- `Program::fetch(frame)`: `funcs[frame.func].body[frame.pc]`, with both
indexings able to panic. -/
def fetch (p : Program) (fr : Frame) : Except Fault Instr :=
  match p.funcs.get? fr.func with
  | none => .error .indexOOB
  | some f =>
    match f.body.get? fr.pc with
    | none => .error .indexOOB
    | some i => .ok i

end Program

/-- Evaluation of a `RelOp` in the Cond arm of `Interpreter::step`: the
source's `vx < vy` etc. go through `PartialOrd` (false whenever a pointer
is involved) and `==`/`!=` through the derived structural `PartialEq`. -/
def relEval : RelOp → Value → Value → Bool
  | .lt, x, y => x.ltb y
  | .le, x, y => x.leb y
  | .gt, x, y => x.gtb y
  | .ge, x, y => x.geb y
  | .eq, x, y => x.beq y
  | .ne, x, y => !(x.beq y)

/-- `Interpreter` from src/exec.rs, with the buffered input as the integers
still unread and the buffered output as the text written so far. -/
structure Interp where
  program : Program
  env : Env
  fin : List Int
  fout : String
deriving DecidableEq, Repr

namespace Interp

/-- One arm-by-arm transcription of `Interpreter::step`: returns the
`Option<usize>` next pc together with the successor state, or the fault the
Rust code would panic with. -/
def step (s : Interp) : Except Fault (Option Nat × Interp) := do
  let fr ← s.env.topFrame
  let instr ← s.program.fetch fr
  match instr with
  | .arith x y op z => do
    let vy ← s.env.getOp y
    let vz ← s.env.getOp z
    let value ← match op with
      | .add => Value.add vy vz
      | .sub => Value.sub vy vz
      | .mul => Value.mul vy vz
      | .div => Value.div vy vz
    let env ← s.env.setOp x value
    .ok (some (fr.pc + 1), { s with env := env })
  | .assign x y => do
    let v ← s.env.getOp y
    let env ← s.env.setOp x v
    .ok (some (fr.pc + 1), { s with env := env })
  | .deref x y => do
    let v ← s.env.getOp y
    let env ← s.env.setOp x v
    .ok (some (fr.pc + 1), { s with env := env })
  | .store x y => do
    -- `let val = env.get(&y); let addr = env.get(&x); addr.store(val);`
    -- `addr` is a clone of the slot's Value; the written buffer is the
    -- clone's and is dropped, so the environment is unchanged.
    let val ← s.env.getOp y
    let addr ← s.env.getOp x
    let _ ← addr.store val
    .ok (some (fr.pc + 1), s)
  | .load x y => do
    let v ← s.env.getOp y
    let lv ← v.load
    let env ← s.env.setOp x lv
    .ok (some (fr.pc + 1), { s with env := env })
  | .arg x => do
    let v ← s.env.getOp x
    .ok (some (fr.pc + 1),
      { s with env := { s.env with args := v :: s.env.args } })
  | .param x =>
    match s.env.args with
    | [] => .error .argStackEmpty
    | v :: rest => do
      let env ← (Env.mk s.env.stack rest).setOp x v
      .ok (some (fr.pc + 1), { s with env := env })
  | .label _ => .ok (some (fr.pc + 1), s)
  | .read x =>
    match s.fin with
    | [] => .error .inputError
    | int :: rest => do
      let env ← s.env.setOp x (Value.new_int (wrap32 int))
      .ok (some (fr.pc + 1), { s with env := env, fin := rest })
  | .write x => do
    let value ← s.env.getOp x
    let str ← value.display
    -- `writeln!(self.fout, "{value}")`: the rendering plus one more newline.
    .ok (some (fr.pc + 1), { s with fout := s.fout ++ str ++ "\n" })
  | .dec x size => do
    let env ← s.env.setOp x (Value.new_ptr (usizeCast size))
    .ok (some (fr.pc + 1), { s with env := env })
  | .call _ _ id =>
    -- `env.push_frame(id); Some(env.pc())` — after the push, `env.pc()` is
    -- the new top frame's pc.  The caller's frame is left untouched.
    match s.program.funcs.get? id with
    | none => .error .indexOOB
    | some f =>
      .ok (some (Frame.new f).pc,
        { s with env := { s.env with stack := Frame.new f :: s.env.stack } })
  | .ret x =>
    if fr.func = s.program.entry then .ok (none, s)
    else do
      let value ← s.env.getOp x
      let env := Env.mk s.env.stack.tail s.env.args -- `pop_frame`
      let fr2 ← env.topFrame
      let f ← match s.program.funcs.get? fr2.func with
        | some f => Except.ok f
        | none => Except.error Fault.indexOOB
      let instr2 ← match f.body.get? fr2.pc with
        | some i => Except.ok i
        | none => Except.error Fault.indexOOB
      match instr2 with
      | .call x2 _ _ => do
        let env ← env.setOp x2 value
        .ok (some (fr2.pc + 1), { s with env := env })
      | _ => .error .returnError
  | .goto _ id => .ok (some id, s)
  | .cond x op y _ id => do
    let vx ← s.env.getOp x
    let vy ← s.env.getOp y
    let jmp := relEval op vx vy
    if jmp then .ok (some id, s) else .ok (some (fr.pc + 1), s)

/-- `Env::pc_set` applied to the interpreter state, as the `exec` loop does
after every step. -/
def pcSet (npc : Nat) (s : Interp) : Except Fault Interp :=
  match s.env.stack with
  | [] => .error .emptyStack
  | fr :: rest =>
    .ok { s with env := { s.env with stack := { fr with pc := npc } :: rest } }

end Interp

/-- Result of driving the `exec` loop: normal halt (a `Return` in the entry
function) with the final state and the instruction count, a fault (a Rust
panic), or running out of fuel (the loop would keep going). -/
inductive RunResult where
  | halted (s : Interp) (cnt : Nat)
  | fault (f : Fault)
  | fuelOut (s : Interp) (cnt : Nat)
deriving DecidableEq, Repr

namespace Interp

/-- `Interpreter::exec`: `while let Some(next_pc) = self.step() {
self.env.pc_set(next_pc); instr_cnt += 1 }`, with explicit fuel. -/
def run : Nat → Interp → Nat → RunResult
  | 0, s, cnt => .fuelOut s cnt
  | fuel + 1, s, cnt =>
    match s.step with
    | .error f => .fault f
    | .ok (none, s2) => .halted s2 cnt
    | .ok (some npc, s2) =>
      match s2.pcSet npc with
      | .error f => .fault f
      | .ok s3 => run fuel s3 (cnt + 1)

/-- `Interpreter::new(program, fin, fout)`: `program.init()` then
`Env::new(&program)`, empty output. -/
def new (p : Program) (fin : List Int) : Except Fault Interp := do
  let prog ← p.init
  let env ← Env.new prog
  .ok { program := prog, env := env, fin := fin, fout := "" }

end Interp

/-- Resolve a raw program and run it on the given input with the given
fuel. -/
def runProg (p : Program) (fin : List Int) (fuel : Nat) :
    Except Fault RunResult :=
  (Interp.new p fin).map (fun s => s.run fuel 0)

/-- The text on the output stream after a run that halted normally. -/
def finalOutput (r : Except Fault RunResult) : Option String :=
  match r with
  | .ok (.halted s _) => some s.fout
  | _ => none

/-! Concrete programs and states used to settle individual claims. -/

/-- Scenario A of the spec, raw (unresolved) form:
`x := #114 * #514`, `y := #0 - x`, `WRITE y`, `RETURN #0`. -/
def scenA : Program :=
  { funcs := [{ name := "main",
                body := [
                  .arith (.reg "x" 0) (.imm 114) .mul (.imm 514),
                  .arith (.reg "y" 0) (.imm 0) .sub (.reg "x" 0),
                  .write (.reg "y" 0),
                  .ret (.imm 0)],
                nreg := 0, id := 0 }],
    entry := 0 }

/-- The resolved form of Scenario A's `main` (what `Program::init`
produces: `x` bound to slot 0, `y` to slot 1, `nreg = 2`). -/
def scenAresMain : Func :=
  { name := "main",
    body := [
      .arith (.reg "x" 0) (.imm 114) .mul (.imm 514),
      .arith (.reg "y" 1) (.imm 0) .sub (.reg "x" 0),
      .write (.reg "y" 1),
      .ret (.imm 0)],
    nreg := 2, id := 0 }

/-- Aliasing scenario, raw form: `DEC p 2`, `q := p + #1`, `*q := #7`,
`r := p + #1`, `x := *r`, `WRITE x`, `RETURN #0`.  The spec's aliasing
invariant demands the write through `q` be visible through the equal
pointer `r`, so the output should be `7`. -/
def c1Prog : Program :=
  { funcs := [{ name := "main",
                body := [
                  .dec (.reg "p" 0) 2,
                  .arith (.reg "q" 0) (.reg "p" 0) .add (.imm 1),
                  .store (.reg "q" 0) (.imm 7),
                  .arith (.reg "r" 0) (.reg "p" 0) .add (.imm 1),
                  .load (.reg "x" 0) (.reg "r" 0),
                  .write (.reg "x" 0),
                  .ret (.imm 0)],
                nreg := 0, id := 0 }],
    entry := 0 }

/-- A raw program with no function named `main`. -/
def noMainProg : Program :=
  { funcs := [{ name := "foo", body := [.ret (.imm 0)], nreg := 0, id := 0 }],
    entry := 0 }

/-- A resolved single-`Return` callee used in call/return states. -/
def idF : Func := { name := "id", body := [.ret (.imm 7)], nreg := 0, id := 1 }

/-- A resolved `main` that calls `idF` into register `r` (slot 0). -/
def mainF : Func :=
  { name := "main", body := [.call (.reg "r" 0) "id" 1, .ret (.imm 0)],
    nreg := 1, id := 0 }

/-- The resolved two-function program `mainF` / `idF`. -/
def twoFuncProg : Program := { funcs := [mainF, idF], entry := 0 }

/-- `twoFuncProg` about to execute `main`'s `Call`. -/
def c2CallState : Interp :=
  { program := twoFuncProg, env := { stack := [Frame.new mainF], args := [] },
    fin := [], fout := "" }

/-- `twoFuncProg` inside `idF` about to execute `RETURN #7`, the caller's
pc parked on the `Call`. -/
def c2RetState : Interp :=
  { program := twoFuncProg,
    env := { stack := [Frame.new idF, Frame.new mainF], args := [] },
    fin := [], fout := "" }

/-- A resolved `main` whose instruction 0 is a `Label`, not a `Call`. -/
def badMainF : Func :=
  { name := "main", body := [.label "l", .ret (.imm 0)], nreg := 0, id := 0 }

/-- `badMainF` / `idF`: a return will find a non-`Call` parked under the
caller's pc. -/
def badRetProg : Program := { funcs := [badMainF, idF], entry := 0 }

/-- `badRetProg` inside `idF` about to execute `RETURN #7` with the
caller's pc parked on a `Label`. -/
def c2BadState : Interp :=
  { program := badRetProg,
    env := { stack := [Frame.new idF, Frame.new badMainF], args := [] },
    fin := [], fout := "" }

/-- A resolved program whose first instruction compares a register against
an immediate with `<`. -/
def c4Prog : Program :=
  { funcs := [{ name := "main",
                body := [.cond (.reg "p" 0) .lt (.imm 5) "l" 0, .ret (.imm 0)],
                nreg := 0, id := 0 }],
    entry := 0 }

/-- `c4Prog` with the compared register holding a freshly allocated
pointer. -/
def c4State : Interp :=
  { program := c4Prog,
    env := { stack := [{ map := [Value.new_ptr 1], func := 0, pc := 0 }],
             args := [] },
    fin := [], fout := "" }

/-! Helper lemmas shared by the claim theorems. -/

/-- `wrap32` is the identity on the `i32` range. -/
theorem wrap32_eq_self {n : Int} (h1 : -2^31 ≤ n) (h2 : n < 2^31) :
    wrap32 n = n := by
  unfold wrap32
  omega

/-- Characterization of the Call arm of `Interpreter::step`: push a frame
for the resolved callee, leave every existing frame untouched, hand back
the new frame's pc. -/
theorem step_call_char (prog : Program) (fr : Frame) (rest : List Frame)
    (args : List Value) (fin : List Int) (fout : String)
    (x : Operand) (nm : String) (cid : Nat) (f : Func)
    (hfetch : prog.fetch fr = .ok (.call x nm cid))
    (hf : prog.funcs[cid]? = some f) :
    Interp.step ⟨prog, ⟨fr :: rest, args⟩, fin, fout⟩ =
      .ok (some (Frame.new f).pc,
        ⟨prog, ⟨Frame.new f :: fr :: rest, args⟩, fin, fout⟩) := by
  simp [Interp.step, Env.topFrame, hfetch, hf, bind, Except.bind]

/-- Characterization of the Return arm in a non-entry frame whose caller's
parked instruction is a `Call` with an in-bounds destination register. -/
theorem step_ret_char (prog : Program) (fr fr2 : Frame) (rest : List Frame)
    (args : List Value) (fin : List Int) (fout : String)
    (x : Operand) (v : Value) (g : Func) (nm2 nm3 : String) (rid cid2 : Nat)
    (hfetch : prog.fetch fr = .ok (.ret x))
    (hne : fr.func ≠ prog.entry)
    (hv : Env.getOp ⟨fr :: fr2 :: rest, args⟩ x = .ok v)
    (hg : prog.funcs[fr2.func]? = some g)
    (hcall : g.body[fr2.pc]? = some (.call (.reg nm2 rid) nm3 cid2))
    (hrid : rid < fr2.map.length) :
    Interp.step ⟨prog, ⟨fr :: fr2 :: rest, args⟩, fin, fout⟩ =
      .ok (some (fr2.pc + 1),
        ⟨prog, ⟨{ fr2 with map := fr2.map.set rid v } :: rest, args⟩,
          fin, fout⟩) := by
  simp [Interp.step, Env.topFrame, Env.setOp, hfetch, hne, hv, hg, hcall,
    hrid, bind, Except.bind]

/-- Characterization of the Return arm when the caller's parked
instruction is not a `Call`: the `panic!("return error")`. -/
theorem step_ret_notcall (prog : Program) (fr fr2 : Frame)
    (rest : List Frame) (args : List Value) (fin : List Int) (fout : String)
    (x : Operand) (v : Value) (g : Func) (i2 : Instr)
    (hfetch : prog.fetch fr = .ok (.ret x))
    (hne : fr.func ≠ prog.entry)
    (hv : Env.getOp ⟨fr :: fr2 :: rest, args⟩ x = .ok v)
    (hg : prog.funcs[fr2.func]? = some g)
    (hi : g.body[fr2.pc]? = some i2)
    (hnc : ∀ a b c, i2 ≠ .call a b c) :
    Interp.step ⟨prog, ⟨fr :: fr2 :: rest, args⟩, fin, fout⟩ =
      .error .returnError := by
  cases i2 <;>
    simp_all [Interp.step, Env.topFrame, hfetch, hne, hv, hg, hi, bind,
      Except.bind]

/-- Characterization of the Cond arm: never a fault; jump exactly when the
comparison evaluates to true. -/
theorem step_cond_char (prog : Program) (fr : Frame) (rest : List Frame)
    (args : List Value) (fin : List Int) (fout : String)
    (x y : Operand) (op : RelOp) (nm : String) (cid : Nat) (vx vy : Value)
    (hfetch : prog.fetch fr = .ok (.cond x op y nm cid))
    (hx : Env.getOp ⟨fr :: rest, args⟩ x = .ok vx)
    (hy : Env.getOp ⟨fr :: rest, args⟩ y = .ok vy) :
    Interp.step ⟨prog, ⟨fr :: rest, args⟩, fin, fout⟩ =
      .ok (some (if relEval op vx vy then cid else fr.pc + 1),
        ⟨prog, ⟨fr :: rest, args⟩, fin, fout⟩) := by
  simp [Interp.step, Env.topFrame, hfetch, hx, hy, bind, Except.bind]
  by_cases h : relEval op vx vy <;> simp [h]

/-- The four `PartialOrd`-based operators evaluate to false whenever a
pointer is involved (`partial_cmp` yields `None`). -/
theorem relEval_ptr_false (op : RelOp) (vx vy : Value)
    (hp : vx.isPtr = true ∨ vy.isPtr = true)
    (hop : op = .lt ∨ op = .le ∨ op = .gt ∨ op = .ge) :
    relEval op vx vy = false := by
  rcases hop with rfl | rfl | rfl | rfl <;>
    cases vx <;> cases vy <;>
      simp_all [relEval, Value.ltb, Value.leb, Value.gtb, Value.geb,
        Value.pcmp, Value.isPtr]

/-- An error of `mapE` is an error of the loop body at some element. -/
theorem mapE_error {α β : Type} (g : α → Except Fault β) :
    ∀ (l : List α) (e : Fault), mapE g l = .error e →
      ∃ a ∈ l, g a = .error e := by
  intro l
  induction l with
  | nil => intro e h; simp [mapE] at h
  | cons a rest ih =>
    intro e h
    simp only [mapE, bind, Except.bind] at h
    cases ha : g a with
    | error e2 =>
      rw [ha] at h
      cases h
      exact ⟨a, List.mem_cons_self a rest, ha⟩
    | ok b =>
      rw [ha] at h
      cases hr : mapE g rest with
      | error e2 =>
        rw [hr] at h
        cases h
        obtain ⟨a2, ha2, he2⟩ := ih e hr
        exact ⟨a2, List.mem_cons_of_mem a ha2, he2⟩
      | ok l2 => rw [hr] at h; cases h

/-- Every element of a successful `mapE` run is the image of an element of
the input. -/
theorem mapE_ok_mem {α β : Type} (g : α → Except Fault β) :
    ∀ (l : List α) (l2 : List β), mapE g l = .ok l2 →
      ∀ b ∈ l2, ∃ a ∈ l, g a = .ok b := by
  intro l
  induction l with
  | nil =>
    intro l2 h b hb
    simp [mapE] at h
    subst h
    cases hb
  | cons a rest ih =>
    intro l2 h b hb
    simp only [mapE, bind, Except.bind] at h
    cases ha : g a with
    | error e => rw [ha] at h; cases h
    | ok b2 =>
      rw [ha] at h
      cases hr : mapE g rest with
      | error e => rw [hr] at h; cases h
      | ok l3 =>
        rw [hr] at h
        injection h with h
        subst h
        rw [List.mem_cons] at hb
        rcases hb with hb | hb
        · exact ⟨a, List.mem_cons_self a rest, hb ▸ ha⟩
        · obtain ⟨a2, ha2, he2⟩ := ih l3 hr b hb
          exact ⟨a2, List.mem_cons_of_mem a ha2, he2⟩

/-- The only panic `resolveJump1` can raise is a resolution panic. -/
theorem resolveJump1_error_shape (map : List (String × Nat)) (i : Instr)
    (e : Fault) (h : resolveJump1 map i = .error e) :
    ∃ m, e = Fault.resolution m := by
  cases i with
  | goto name id =>
    simp only [resolveJump1] at h
    cases hl : map.lookup name <;> rw [hl] at h
    · injection h with h
      exact ⟨name, h.symm⟩
    · exact Except.noConfusion h
  | cond x op y name id =>
    simp only [resolveJump1] at h
    cases hl : map.lookup name <;> rw [hl] at h
    · injection h with h
      exact ⟨name, h.symm⟩
    · exact Except.noConfusion h
  | assign x y => exact Except.noConfusion h
  | arith x y op z => exact Except.noConfusion h
  | deref x y => exact Except.noConfusion h
  | store x y => exact Except.noConfusion h
  | load x y => exact Except.noConfusion h
  | label name => exact Except.noConfusion h
  | ret x => exact Except.noConfusion h
  | dec x size => exact Except.noConfusion h
  | arg x => exact Except.noConfusion h
  | call x name id => exact Except.noConfusion h
  | param x => exact Except.noConfusion h
  | read x => exact Except.noConfusion h
  | write x => exact Except.noConfusion h

/-- The only panic `Func::init` can raise is a resolution panic. -/
theorem funcInit_error_shape (f : Func) (e : Fault)
    (h : Func.init f = .error e) : ∃ m, e = Fault.resolution m := by
  simp only [Func.init, resolveJumps, bind, Except.bind] at h
  cases hr : mapE (resolveJump1 (labelMap f.body)) f.body with
  | error e2 =>
    rw [hr] at h
    cases h
    obtain ⟨i, _, hi⟩ := mapE_error _ _ _ hr
    exact resolveJump1_error_shape _ _ _ hi
  | ok body => rw [hr] at h; cases h

/-- `Func::init` never changes the function's name. -/
theorem funcInit_name (f f2 : Func) (h : Func.init f = .ok f2) :
    f2.name = f.name := by
  simp only [Func.init, resolveJumps, bind, Except.bind] at h
  cases hr : mapE (resolveJump1 (labelMap f.body)) f.body with
  | error e => rw [hr] at h; cases h
  | ok body => rw [hr] at h; cases h; rfl

/-- If no function is named `k` and `k` is absent from the accumulator,
`k` is absent from the built name map. -/
theorem nameMapAux_lookup_none (k : String) :
    ∀ (l : List Func) (i : Nat) (acc : List (String × Nat)),
      (∀ f ∈ l, f.name ≠ k) → acc.lookup k = none →
      (nameMapAux i l acc).lookup k = none := by
  intro l
  induction l with
  | nil => intro i acc _ hacc; simpa [nameMapAux] using hacc
  | cons f rest ih =>
    intro i acc h hacc
    simp only [nameMapAux]
    apply ih
    · intro f2 hf2; exact h f2 (List.mem_cons_of_mem f hf2)
    · have hne : f.name ≠ k := h f (List.mem_cons_self f rest)
      have hbe : (k == f.name) = false := by
        rw [beq_eq_false_iff_ne]
        exact Ne.symm hne
      simp [List.lookup, hbe, hacc]

/-! The claim theorems. -/

/-- C6 (evidence): runtime integers are 32-bit, not the claimed 64-bit
`i64`: `Integer(2147483647) + Integer(1)` evaluates to
`Integer(-2147483648)` under value.rs's `i32` representation, which is not
`Integer(a + b) = Integer(2147483648)`. -/
theorem int_width_is_32_bits :
    Value.add (.valInt 2147483647) (.valInt 1) =
      .ok (.valInt (-2147483648)) ∧
    ((2147483647 : Int) + 1 ≠ -2147483648) := by
  exact ⟨rfl, by decide⟩

/-- C7 (counterexample): `Integer(-2147483648) / Integer(-1)` has a
nonzero divisor, yet the division is a fatal overflow fault rather than
the claimed `Integer(a/b)`. -/
theorem div_min_by_neg_one_cex :
    Value.div (.valInt (-2147483648)) (.valInt (-1)) =
      .error .divOverflow ∧
    Value.div (.valInt (-2147483648)) (.valInt (-1)) ≠
      .ok (.valInt (Int.tdiv (-2147483648) (-1))) := by
  refine ⟨rfl, ?_⟩
  intro h
  exact Except.noConfusion h

/-- C7 (amended): for 32-bit integers a and b, division by zero is a fatal
fault, and whenever b is nonzero and (a, b) is not the overflowing pair
(-2^31, -1) — which also faults — the quotient is `Integer(a/b)` with
truncation toward zero. -/
theorem int_division_amended (a b : Int)
    (ha1 : -2^31 ≤ a) (ha2 : a < 2^31) (hb1 : -2^31 ≤ b) (hb2 : b < 2^31) :
    (b = 0 → Value.div (.valInt a) (.valInt b) = .error .divByZero) ∧
    (b ≠ 0 → ¬(a = -2^31 ∧ b = -1) →
      Value.div (.valInt a) (.valInt b) = .ok (.valInt (Int.tdiv a b))) := by
  constructor
  · intro hb
    subst hb
    simp [Value.div, Value.i32div, Except.map]
  · intro hb hover
    simp only [Value.div, Value.i32div]
    rw [if_neg hb, if_neg (show ¬(a = -(2 ^ 31) ∧ b = -1) by omega)]
    rfl

/-- C7 (witness): the amended division law at 7 / 0 and 7 / (-2). -/
theorem int_division_amended_witness :
    Value.div (.valInt 7) (.valInt 0) = .error .divByZero ∧
    Value.div (.valInt 7) (.valInt (-2)) =
      .ok (.valInt (Int.tdiv 7 (-2))) := by
  constructor
  · exact (int_division_amended 7 0 (by decide) (by decide) (by decide)
      (by decide)).1 rfl
  · exact (int_division_amended 7 (-2) (by decide) (by decide) (by decide)
      (by decide)).2 (by decide) (by decide)

/-- C9 (counterexample): adding `Integer(-1)` to a fresh pointer (offset
0) yields offset 2^64 - 1 — the `as usize` cast wraps — which is not "p's
offset shifted by k" as an integer (that would be -1). -/
theorem ptr_offset_wrap_cex :
    Value.add (Value.new_ptr 1) (.valInt (-1)) =
      .ok (.valPtr [0] 1 18446744073709551615) ∧
    ((18446744073709551615 : Int) ≠ (0 : Int) + (-1)) := by
  exact ⟨rfl, by decide⟩

/-- C9 (amended): for a pointer whose offset is below 2^31 and an integer
k with 0 ≤ offset + k < 2^31, Pointer+Integer and Integer+Pointer keep the
buffer and capacity and shift the offset to offset + k, and subtracting
Integer(k) from the result restores the original pointer; outside that
range the `usize` cast wraps. -/
theorem ptr_arith_amended (mem : List Int) (size : Nat) (ptr : Nat)
    (k : Int) (h1 : (ptr : Int) < 2^31) (h2 : 0 ≤ (ptr : Int) + k)
    (h3 : (ptr : Int) + k < 2^31) :
    Value.add (.valPtr mem size ptr) (.valInt k) =
      .ok (.valPtr mem size ((ptr : Int) + k).toNat) ∧
    Value.add (.valInt k) (.valPtr mem size ptr) =
      .ok (.valPtr mem size ((ptr : Int) + k).toNat) ∧
    Value.sub (.valPtr mem size (((ptr : Int) + k).toNat)) (.valInt k) =
      .ok (.valPtr mem size ptr) := by
  unfold Value.add Value.sub wrap32 usizeCast
  refine ⟨?_, ?_, ?_⟩ <;>
    simp only [Except.ok.injEq, Value.valPtr.injEq, true_and] <;>
    omega

/-- C9 (witness): the amended pointer arithmetic law on a 3-cell buffer at
offset 0 with k = 2. -/
theorem ptr_arith_amended_witness :
    Value.add (.valPtr [0, 0, 0] 3 0) (.valInt 2) =
      .ok (.valPtr [0, 0, 0] 3 (((0 : Nat) : Int) + 2).toNat) ∧
    Value.add (.valInt 2) (.valPtr [0, 0, 0] 3 0) =
      .ok (.valPtr [0, 0, 0] 3 (((0 : Nat) : Int) + 2).toNat) ∧
    Value.sub (.valPtr [0, 0, 0] 3 ((((0 : Nat) : Int) + 2).toNat))
        (.valInt 2) =
      .ok (.valPtr [0, 0, 0] 3 0) :=
  ptr_arith_amended [0, 0, 0] 3 0 2 (by decide) (by decide) (by decide)

/-- C10: storing a Pointer argument through a Pointer is not a fault: the
`if let ValInt` guard does not match, so `store` returns with the
receiver — buffer, capacity and offset — completely unchanged. -/
theorem store_pointer_arg_silently_skipped (mem : List Int)
    (size ptr : Nat) (mem2 : List Int) (size2 ptr2 : Nat) :
    Value.store (.valPtr mem size ptr) (.valPtr mem2 size2 ptr2) =
      .ok (.valPtr mem size ptr) := rfl

/-- C4 (counterexample): a Cond comparing a pointer register with `<`
against an immediate completes normally (falls through to pc + 1) instead
of being the claimed fatal fault. -/
theorem pointer_comparison_no_fault_cex :
    Interp.step c4State = .ok (some 1, c4State) := rfl

/-- C4 (amended): a Cond whose operands include a Pointer is not a fault:
the step completes, jumping iff the comparison evaluates to true; the four
ordering operators evaluate to false whenever a pointer is involved, and
`==` / `!=` compare values structurally. -/
theorem pointer_comparison_amended (prog : Program) (fr : Frame)
    (rest : List Frame) (args : List Value) (fin : List Int) (fout : String)
    (x y : Operand) (op : RelOp) (nm : String) (cid : Nat) (vx vy : Value)
    (hfetch : prog.fetch fr = .ok (.cond x op y nm cid))
    (hx : Env.getOp ⟨fr :: rest, args⟩ x = .ok vx)
    (hy : Env.getOp ⟨fr :: rest, args⟩ y = .ok vy)
    (hp : vx.isPtr = true ∨ vy.isPtr = true) :
    Interp.step ⟨prog, ⟨fr :: rest, args⟩, fin, fout⟩ =
      .ok (some (if relEval op vx vy then cid else fr.pc + 1),
        ⟨prog, ⟨fr :: rest, args⟩, fin, fout⟩) ∧
    (op = .lt ∨ op = .le ∨ op = .gt ∨ op = .ge →
      relEval op vx vy = false) ∧
    relEval .eq vx vy = decide (vx = vy) ∧
    relEval .ne vx vy = !decide (vx = vy) := by
  refine ⟨step_cond_char prog fr rest args fin fout x y op nm cid vx vy
    hfetch hx hy, fun hop => relEval_ptr_false op vx vy hp hop, rfl, rfl⟩

/-- C4 (witness): the amended comparison law on `c4State` (slot 0 holds a
fresh pointer, compared with `< #5`). -/
theorem pointer_comparison_amended_witness :
    Interp.step c4State =
      .ok (some (if relEval .lt (Value.new_ptr 1) (.valInt 5) then 0
          else (0 : Nat) + 1),
        c4State) ∧
    relEval .lt (Value.new_ptr 1) (.valInt 5) = false := by
  have h := pointer_comparison_amended c4Prog
    { map := [Value.new_ptr 1], func := 0, pc := 0 } [] [] [] ""
    (.reg "p" 0) (.imm 5) .lt "l" 0 (Value.new_ptr 1) (.valInt 5)
    rfl rfl rfl (Or.inl rfl)
  exact ⟨h.1, h.2.1 (Or.inl rfl)⟩

/-- C2: (a) a Call pushes a frame for the resolved callee on top of the
untouched caller frames and hands back the new frame's pc 0, so the
loop's `pc_set` leaves every caller pc unchanged — the caller still points
at the Call; (b) a Return in a non-entry frame evaluates its operand in
the popped frame, writes the value into the destination slot of the Call
parked under the new top frame's pc, and advances that pc by 1; (c) it is
a fatal fault if the parked instruction is not a Call. -/
theorem call_return_discipline :
    (∀ (prog : Program) (fr : Frame) (rest : List Frame)
        (args : List Value) (fin : List Int) (fout : String) (x : Operand)
        (nm : String) (cid : Nat) (f : Func),
      prog.fetch fr = .ok (.call x nm cid) →
      prog.funcs[cid]? = some f →
      Interp.step ⟨prog, ⟨fr :: rest, args⟩, fin, fout⟩ =
        .ok (some (Frame.new f).pc,
          ⟨prog, ⟨Frame.new f :: fr :: rest, args⟩, fin, fout⟩) ∧
      (Frame.new f).pc = 0 ∧
      Interp.pcSet (Frame.new f).pc
          ⟨prog, ⟨Frame.new f :: fr :: rest, args⟩, fin, fout⟩ =
        .ok ⟨prog, ⟨Frame.new f :: fr :: rest, args⟩, fin, fout⟩) ∧
    (∀ (prog : Program) (fr fr2 : Frame) (rest : List Frame)
        (args : List Value) (fin : List Int) (fout : String) (x : Operand)
        (v : Value) (g : Func) (nm2 nm3 : String) (rid cid2 : Nat),
      prog.fetch fr = .ok (.ret x) →
      fr.func ≠ prog.entry →
      Env.getOp ⟨fr :: fr2 :: rest, args⟩ x = .ok v →
      prog.funcs[fr2.func]? = some g →
      g.body[fr2.pc]? = some (.call (.reg nm2 rid) nm3 cid2) →
      rid < fr2.map.length →
      Interp.step ⟨prog, ⟨fr :: fr2 :: rest, args⟩, fin, fout⟩ =
        .ok (some (fr2.pc + 1),
          ⟨prog, ⟨{ fr2 with map := fr2.map.set rid v } :: rest, args⟩,
            fin, fout⟩)) ∧
    (∀ (prog : Program) (fr fr2 : Frame) (rest : List Frame)
        (args : List Value) (fin : List Int) (fout : String) (x : Operand)
        (v : Value) (g : Func) (i2 : Instr),
      prog.fetch fr = .ok (.ret x) →
      fr.func ≠ prog.entry →
      Env.getOp ⟨fr :: fr2 :: rest, args⟩ x = .ok v →
      prog.funcs[fr2.func]? = some g →
      g.body[fr2.pc]? = some i2 →
      (∀ a b c, i2 ≠ .call a b c) →
      Interp.step ⟨prog, ⟨fr :: fr2 :: rest, args⟩, fin, fout⟩ =
        .error .returnError) := by
  refine ⟨?_, ?_, ?_⟩
  · intro prog fr rest args fin fout x nm cid f hfetch hf
    refine ⟨step_call_char prog fr rest args fin fout x nm cid f hfetch hf,
      rfl, rfl⟩
  · intro prog fr fr2 rest args fin fout x v g nm2 nm3 rid cid2 hfetch hne
      hv hg hcall hrid
    exact step_ret_char prog fr fr2 rest args fin fout x v g nm2 nm3 rid
      cid2 hfetch hne hv hg hcall hrid
  · intro prog fr fr2 rest args fin fout x v g i2 hfetch hne hv hg hi hnc
    exact step_ret_notcall prog fr fr2 rest args fin fout x v g i2 hfetch
      hne hv hg hi hnc

/-- C2 (witness): the call/return discipline exercised on the concrete
two-function program — a Call from `main`, the matching Return from `id`,
and a Return whose caller's parked instruction is a Label. -/
theorem call_return_discipline_witness :
    Interp.step c2CallState =
      .ok (some (Frame.new idF).pc,
        ⟨twoFuncProg, ⟨Frame.new idF :: Frame.new mainF :: [], []⟩,
          [], ""⟩) ∧
    Interp.step c2RetState =
      .ok (some ((Frame.new mainF).pc + 1),
        ⟨twoFuncProg,
          ⟨{ Frame.new mainF with
              map := (Frame.new mainF).map.set 0 (.valInt 7) } :: [], []⟩,
          [], ""⟩) ∧
    Interp.step c2BadState = .error .returnError := by
  refine ⟨?_, ?_, ?_⟩
  · exact (call_return_discipline.1 twoFuncProg (Frame.new mainF) [] [] []
      "" (.reg "r" 0) "id" 1 idF rfl rfl).1
  · exact call_return_discipline.2.1 twoFuncProg (Frame.new idF)
      (Frame.new mainF) [] [] [] "" (.imm 7) (.valInt 7) mainF "r" "id" 0 1
      rfl (by decide) rfl rfl rfl (by decide)
  · exact call_return_discipline.2.2 badRetProg (Frame.new idF)
      (Frame.new badMainF) [] [] [] "" (.imm 7) (.valInt 7) badMainF
      (.label "l") rfl (by decide) rfl rfl rfl
      (fun a b c h => Instr.noConfusion h)

/-- C5 (counterexample): `Program::init` resolves Scenario A's `main` to a
slot count of 2, yet the frame created for it has a slot array of length
3 = nreg + 1, not the claimed "exactly the resolved slot count". -/
theorem frame_slot_count_cex :
    Program.init scenA = .ok ⟨[scenAresMain], 0⟩ ∧
    (Frame.new scenAresMain).map.length ≠ scenAresMain.nreg := by
  exact ⟨rfl, by decide⟩

/-- C5 (amended): every frame is created by `Frame::new`, with a slot
array of length nreg + 1 (one more than the resolved slot count), every
slot `Integer(0)`, pc 0 and the owning function's id; the initial
environment holds exactly the entry function's frame, and the Call arm
pushes exactly `Frame::new` of the callee. -/
theorem frame_creation_amended :
    (∀ f : Func,
      (Frame.new f).map.length = f.nreg + 1 ∧
      (∀ v ∈ (Frame.new f).map, v = .valInt 0) ∧
      (Frame.new f).pc = 0 ∧ (Frame.new f).func = f.id) ∧
    (∀ (p : Program) (f : Func), p.funcs[p.entry]? = some f →
      Env.new p = .ok ⟨[Frame.new f], []⟩) ∧
    (∀ (prog : Program) (fr : Frame) (rest : List Frame)
        (args : List Value) (fin : List Int) (fout : String) (x : Operand)
        (nm : String) (cid : Nat) (f : Func),
      prog.fetch fr = .ok (.call x nm cid) →
      prog.funcs[cid]? = some f →
      Interp.step ⟨prog, ⟨fr :: rest, args⟩, fin, fout⟩ =
        .ok (some (Frame.new f).pc,
          ⟨prog, ⟨Frame.new f :: fr :: rest, args⟩, fin, fout⟩)) := by
  refine ⟨?_, ?_, ?_⟩
  · intro f
    refine ⟨List.length_replicate _ _, ?_, rfl, rfl⟩
    intro v hv
    exact List.eq_of_mem_replicate hv
  · intro p f hp
    simp [Env.new, hp]
  · intro prog fr rest args fin fout x nm cid f hfetch hf
    exact step_call_char prog fr rest args fin fout x nm cid f hfetch hf

/-- C5 (witness): the amended frame law at Scenario A's resolved `main`,
the two-function program's initial environment, and its concrete Call
step. -/
theorem frame_creation_amended_witness :
    (Frame.new scenAresMain).map.length = scenAresMain.nreg + 1 ∧
    Env.new twoFuncProg = .ok ⟨[Frame.new mainF], []⟩ ∧
    Interp.step c2CallState =
      .ok (some (Frame.new idF).pc,
        ⟨twoFuncProg, ⟨Frame.new idF :: Frame.new mainF :: [], []⟩,
          [], ""⟩) := by
  refine ⟨(frame_creation_amended.1 scenAresMain).1, ?_, ?_⟩
  · exact frame_creation_amended.2.1 twoFuncProg mainF rfl
  · exact frame_creation_amended.2.2 twoFuncProg (Frame.new mainF) [] [] []
      "" (.reg "r" 0) "id" 1 idF rfl rfl

/-- C8: a raw program none of whose functions is named `main` resolves to
a fatal ResolutionError, and the whole pipeline (`Interpreter::new` then
`exec`) therefore reports that same fault for every fuel bound — no
instruction is ever executed and no output is produced. -/
theorem missing_main_aborts (p : Program) (fin : List Int)
    (h : ∀ f ∈ p.funcs, f.name ≠ "main") :
    ∃ msg, Program.init p = .error (.resolution msg) ∧
      ∀ fuel, runProg p fin fuel = .error (.resolution msg) := by
  cases hif : initFuncs p.funcs with
  | error e =>
    obtain ⟨f, _, hf⟩ := mapE_error Func.init p.funcs e hif
    obtain ⟨m, rfl⟩ := funcInit_error_shape f e hf
    have hpi : Program.init p = .error (.resolution m) := by
      simp only [Program.init, bind, Except.bind, hif]
    exact ⟨m, hpi, fun fuel => by
      simp only [runProg, Interp.new, bind, Except.bind, hpi, Except.map]⟩
  | ok l =>
    have hnames : ∀ f2 ∈ l, f2.name ≠ "main" := by
      intro f2 hf2
      obtain ⟨f, hfmem, hfi⟩ := mapE_ok_mem Func.init p.funcs l hif f2 hf2
      rw [funcInit_name f f2 hfi]
      exact h f hfmem
    have hlook : (nameMap l).lookup "main" = none :=
      nameMapAux_lookup_none "main" l 0 [] hnames rfl
    have hpi : Program.init p =
        .error (.resolution "no main function found") := by
      simp only [Program.init, bind, Except.bind, hif, nameMap] at hlook ⊢
      rw [hlook]
    exact ⟨"no main function found", hpi, fun fuel => by
      simp only [runProg, Interp.new, bind, Except.bind, hpi, Except.map]⟩

/-- C8 (witness): the missing-`main` law on the concrete one-function
program named `foo`. -/
theorem missing_main_aborts_witness :
    ∃ msg, Program.init noMainProg = .error (.resolution msg) ∧
      ∀ fuel, runProg noMainProg [] fuel = .error (.resolution msg) :=
  missing_main_aborts noMainProg [] (by decide)

/-- C1 (evidence): running the aliasing scenario — allocate, store 7
through `p + 1`, load back through an equal `p + 1` — prints `0`, not the
claimed 7: `env.get` clones the pointer (deep `Box<Vec>` copy) and the
Store arm writes into the dropped clone, so the write is never visible.
The repo's own `test_arr` expects the claimed behaviour and fails. -/
theorem store_through_clone_drops_write :
    finalOutput (runProg c1Prog [] 20) = some "0\n\n" ∧
    finalOutput (runProg c1Prog [] 20) ≠ some "7\n" := by
  exact ⟨by decide, by decide⟩

/-- C3 (evidence): Scenario A outputs `-58596` followed by TWO newlines,
not one: `Display for Value` itself uses `writeln!` and the Write arm's
`writeln!` appends a second newline.  The repo's own `test_exec` expects
a single newline and fails. -/
theorem write_double_newline :
    finalOutput (runProg scenA [] 10) = some "-58596\n\n" ∧
    finalOutput (runProg scenA [] 10) ≠ some "-58596\n" := by
  exact ⟨by decide, by decide⟩

end Misri

